import Mathlib

/-!
Verification development for the eons operation-orchestration engine
(`src/src/Functor.py`).  The Python `Functor` class is shallowly embedded:
Python values become the inductive `PyVal`, exceptions become the error type
`PyErr` threaded through `Except`, and the recursive multi-scope `Fetch`
algorithm is embedded with an explicit fuel parameter (the source recursion
is bounded by the `attempted` visited list; a sufficiency theorem for the
fuel is proved below).  Cyclic `precursor`/`executor` object references are
represented by name, resolved through a `World` of functors.  The float
round-trip test of the type-coercion layer is embedded exactly: a correctly
rounded decimal-to-binary64 conversion and CPython's shortest-repr printer,
checked below against CPython at representative points.
-/

set_option maxRecDepth 100000
set_option exponentiation.threshold 5000

namespace Eons

/-- Python exceptions relevant to the embedded code paths.
`fuelOut` is not a Python error: it marks exhaustion of the explicit
recursion budget of the embedding (shown unreachable for adequate fuel). -/
inductive PyErr where
  | fuelOut
  | attributeError
  | missingArgument
  | functorError
  | invalidNext
  | valueError
  deriving DecidableEq

/-- Python values as they flow through `Functor.EvaluateToType` and `Fetch`.
A Python `float` is represented by its shortest `repr` string: the source
only ever produces a float from a string `s` with `str(float(s)) == s`, so
the repr string identifies the float exactly on every code path modelled
here.  A Python list is a `listNil`/`listCons` spine and a dict (insertion
ordered) a `dictNil`/`dictCons` spine, keeping the whole type a single
inductive so that every recursion below is structural. -/
inductive PyVal where
  | none : PyVal
  | bool : Bool → PyVal
  | int : Int → PyVal
  | float : String → PyVal
  | str : String → PyVal
  | listNil : PyVal
  | listCons : PyVal → PyVal → PyVal
  | dictNil : PyVal
  | dictCons : String → PyVal → PyVal → PyVal
  deriving DecidableEq

/-- Python `str()` of a value (used by f-string substitution).  Containers
are rendered spine-recursively and without the quoting Python's `repr`
would add — the embedded code paths under verification never interpolate
containers, only scalars. -/
def pyStr : PyVal → String
  | .none => "None"
  | .bool true => "True"
  | .bool false => "False"
  | .int n => toString n
  | .float s => s
  | .str s => s
  | .listNil => "[]"
  | .listCons hd tl => "[" ++ pyStr hd ++ ", " ++ pyStr tl ++ "]"
  | .dictNil => "\x7b\x7d"
  | .dictCons k v tl => "\x7b" ++ k ++ ": " ++ pyStr v ++ ", " ++ pyStr tl ++ "\x7d"

/-- Python `str.lower()`. -/
def pyLower (s : String) : String := String.mk (s.data.map Char.toLower)

/-- Python `str.upper()`. -/
def pyUpper (s : String) : String := String.mk (s.data.map Char.toUpper)

/-- Python `c in s` for a single character. -/
def pyContainsChar (s : String) (c : Char) : Bool := s.data.contains c

/-- Modelled from the source's `eval(f"f\"{value}\"")` (Functor.py line 215),
restricted to attribute-path expressions `this.<attr>` — the only expression
form the spec and its examples exercise; any other embedded expression is
modelled as an error.  A missing attribute is an `attributeError` (the spec:
interpolation "must fail loudly if a referenced attribute does not exist"). -/
def evalAttrExpr (attrs : List (String × PyVal)) (s : String) : Except PyErr PyVal :=
  if "this.".data.isPrefixOf s.data then
    match attrs.lookup (s.drop 5) with
    | some v => .ok v
    | Option.none => .error .attributeError
  else .error .valueError

/-- One pass of f-string interpolation over the character list.  The second
argument holds the characters of the expression currently being read
(reversed), `Option.none` when reading plain text. -/
def pyFStringGo (attrs : List (String × PyVal)) :
    List Char → Option (List Char) → String → Except PyErr String
  | [], Option.none, acc => .ok acc
  | [], some _, _ => .error .valueError
  | '{' :: '{' :: rest, Option.none, acc => pyFStringGo attrs rest Option.none (acc ++ "\x7b")
  | '}' :: '}' :: rest, Option.none, acc => pyFStringGo attrs rest Option.none (acc ++ "\x7d")
  | '{' :: rest, Option.none, acc => pyFStringGo attrs rest (some []) acc
  | '}' :: _, Option.none, _ => .error .valueError
  | c :: rest, Option.none, acc => pyFStringGo attrs rest Option.none (acc ++ String.singleton c)
  | '}' :: rest, some ex, acc =>
      match evalAttrExpr attrs (String.mk ex.reverse) with
      | .ok v => pyFStringGo attrs rest Option.none (acc ++ pyStr v)
      | .error e => .error e
  | '{' :: _, some _, _ => .error .valueError
  | c :: rest, some ex, acc => pyFStringGo attrs rest (some (c :: ex)) acc

/-- f-string interpolation of a whole string against the functor's
attribute namespace (`this`). -/
def pyFString (attrs : List (String × PyVal)) (s : String) : Except PyErr String :=
  pyFStringGo attrs s.data Option.none ""

/-- Value of a digit list (most significant first). -/
def digitsToNat (l : List Char) : Nat :=
  l.foldl (fun acc c => 10 * acc + (c.toNat - 48)) 0

/-- An IEEE-754 binary64 value as CPython's `float` holds it: `nan`,
signed infinity, or a finite value `±m·2^e` with `0 ≤ m < 2^53` and
`-1074 ≤ e ≤ 971`, normalized so that `m ≥ 2^52` or `e = -1074`. -/
inductive PyFloat where
  | nan : PyFloat
  | inf : Bool → PyFloat
  | finite : Bool → Nat → Int → PyFloat
  deriving DecidableEq

/-- Bit length of a natural number (the fuel argument, `n` itself, always
suffices since `bitlen n ≤ n` for `n ≥ 1`). -/
def bitlenGo : Nat → Nat → Nat
  | 0, _ => 0
  | fuel + 1, n => if n = 0 then 0 else bitlenGo fuel (n / 2) + 1

/-- Bit length: `2^(bitlen n - 1) ≤ n < 2^(bitlen n)` for `n > 0`. -/
def bitlen (n : Nat) : Nat := bitlenGo n n

/-- Correctly rounded (round-half-even) conversion of the exact rational
`M·10^E` (with `M > 0`) to the nearest binary64, as CPython's `strtod`
performs it; magnitudes beyond the double range become infinity, ones
below half the smallest subnormal become zero. -/
def roundToDouble (neg : Bool) (M : Nat) (E : Int) : PyFloat :=
  let N := M * 10 ^ E.toNat
  let D := 10 ^ (-E).toNat
  let t : Int := (bitlen N : Int) - (bitlen D : Int)
  let fl : Int := if N * 2 ^ (-t).toNat ≥ D * 2 ^ t.toNat then t else t - 1
  let e : Int := max (fl - 52) (-1074)
  let num := N * 2 ^ (-e).toNat
  let den := D * 2 ^ e.toNat
  let q0 := num / den
  let r := num % den
  let m := if 2 * r > den then q0 + 1
    else if 2 * r < den then q0
    else if q0 % 2 = 0 then q0 else q0 + 1
  let me : Nat × Int := if m = 2 ^ 53 then (2 ^ 52, e + 1) else (m, e)
  if me.2 > 971 then .inf neg else .finite neg me.1 me.2

/-- CPython `float(s)` on the canonical-candidate grammar
`[-] (inf | nan | digits [. digits] [e [+|-] digits])` (at least one
mantissa digit).  Inputs outside this grammar (whitespace, underscores,
mantissa `+`, upper case, `infinity`) either fail Python's parse too or
parse to a value whose repr cannot equal the input, so rejecting them
leaves the round-trip test's value unchanged.  The magnitude guard feeds
overflow to infinity and underflow to zero exactly as correct rounding
would, while keeping the exact arithmetic bounded. -/
def pyFloatParse (s : String) : Option PyFloat :=
  let signBody : Bool × List Char := match s.data with
    | '-' :: t => (true, t)
    | t => (false, t)
  let neg := signBody.1
  let l := signBody.2
  if l = ['i', 'n', 'f'] then some (.inf neg)
  else if l = ['n', 'a', 'n'] then some .nan
  else
    let ip := l.takeWhile Char.isDigit
    let r1 := l.dropWhile Char.isDigit
    let fpr : List Char × List Char := match r1 with
      | '.' :: t => (t.takeWhile Char.isDigit, t.dropWhile Char.isDigit)
      | t => ([], t)
    let fp := fpr.1
    let r2 := fpr.2
    if ip.isEmpty && fp.isEmpty then Option.none
    else
      let M := digitsToNat (ip ++ fp)
      let sig := ((ip ++ fp).dropWhile (fun c => c == '0')).length
      let mk : Int → Option PyFloat := fun E =>
        if M = 0 then some (.finite neg 0 (-1074))
        else if (sig : Int) + E > 330 then some (.inf neg)
        else if (sig : Int) + E < -330 then some (.finite neg 0 (-1074))
        else some (roundToDouble neg M E)
      match r2 with
      | [] => mk (-(fp.length : Int))
      | 'e' :: t =>
          let esign : Bool × List Char := match t with
            | '-' :: u => (true, u)
            | '+' :: u => (false, u)
            | u => (false, u)
          let xd := esign.2.takeWhile Char.isDigit
          let r3 := esign.2.dropWhile Char.isDigit
          if xd.isEmpty || !r3.isEmpty then Option.none
          else
            let ex : Int := if esign.1 then -(digitsToNat xd : Int) else (digitsToNat xd : Int)
            mk (ex - (fp.length : Int))
      | _ => Option.none

/-- The scale/fixup loop of the shortest-repr (Dragon4) algorithm:
establishes `S/10 < R + Mp ≤ S` (boundary inclusive exactly when the
mantissa is even), returning the decimal position `k` of the first digit.
The fuel bounds the loop; 1200 covers the double exponent range. -/
def drgFixup (even : Bool) : Nat → Nat → Nat → Nat → Nat → Int →
    Nat × Nat × Nat × Nat × Int
  | 0, R, S, Mp, Mm, k => (R, S, Mp, Mm, k)
  | fuel + 1, R, S, Mp, Mm, k =>
      if R + Mp > S || (even && decide (R + Mp = S)) then
        drgFixup even fuel R (S * 10) Mp Mm (k + 1)
      else if (R + Mp) * 10 < S || (!even && decide ((R + Mp) * 10 = S)) then
        drgFixup even fuel (R * 10) S (Mp * 10) (Mm * 10) (k - 1)
      else (R, S, Mp, Mm, k)

/-- Increments the last digit of a digit string, dropping trailing nines
as David Gay's `dtoa` roundoff does; returns the new digits and whether a
carry out of the leading digit bumped the decimal exponent. -/
def incDigits (ds : List Nat) : List Nat × Bool :=
  match ds.reverse.dropWhile (fun d => d == 9) with
  | [] => ([1], true)
  | d :: rest => (((d + 1) :: rest).reverse, false)

/-- The digit-generation loop of the shortest-repr algorithm (David Gay's
`dtoa` mode 0 as CPython ships it): emit digits until truncation (low) or
rounding up (high) stays inside the rounding interval of the value, with
boundaries inclusive exactly when the mantissa is even; when both stop
conditions hold, round to the nearer decimal, breaking an exact tie
toward an even digit.  Returns the digits and whether a carry bumped the
decimal exponent; 60 units of fuel far exceed the at most 17 digits a
double needs. -/
def genDigits (even : Bool) : Nat → Nat → Nat → Nat → Nat → List Nat →
    Option (List Nat × Bool)
  | 0, _, _, _, _, _ => Option.none
  | fuel + 1, R, S, Mp, Mm, acc =>
      let R10 := R * 10
      let d := R10 / S
      let R2 := R10 % S
      let Mp2 := Mp * 10
      let Mm2 := Mm * 10
      let low := R2 < Mm2 || (even && decide (R2 = Mm2))
      let highEq := even && decide (R2 + Mp2 = S)
      let highStrict := R2 + Mp2 > S
      if highEq then
        if d = 9 then some (incDigits (acc ++ [d]))
        else if R2 > Mm2 then some (acc ++ [d + 1], false)
        else some (acc ++ [d], false)
      else if low then
        if highStrict then
          if 2 * R2 > S || (decide (2 * R2 = S) && decide (d % 2 = 1)) then
            some (incDigits (acc ++ [d]))
          else some (acc ++ [d], false)
        else some (acc ++ [d], false)
      else if highStrict then some (incDigits (acc ++ [d]))
      else genDigits even fuel R2 S Mp2 Mm2 (acc ++ [d])

/-- The decimal digit character of `d < 10`. -/
def digitChar (d : Nat) : Char := Char.ofNat (48 + d)

/-- Decimal rendering of a natural number (fuel `n` always suffices). -/
def natDigitsGo : Nat → Nat → List Char → List Char
  | 0, _, acc => acc
  | fuel + 1, n, acc => if n = 0 then acc else natDigitsGo fuel (n / 10) (digitChar (n % 10) :: acc)

/-- Decimal rendering of a natural number. -/
def natToDec (n : Nat) : String := if n = 0 then "0" else String.mk (natDigitsGo n n [])

/-- CPython's repr layout for a digit string `0.d₁…dₙ × 10^decpt`:
fixed-point notation when `-4 < decpt ≤ 16` (with `.0` appended to
integral values and leading `0.00…` for small ones), otherwise scientific
notation `d[.ddd]e±XX` with a signed, at least two-digit exponent. -/
def formatDigits (ds : List Nat) (decpt : Int) : String :=
  if decpt ≤ -4 || decpt > 16 then
    match ds with
    | [] => ""
    | d :: rest =>
        let exp := decpt - 1
        let a := (if exp < 0 then -exp else exp).toNat
        String.singleton (digitChar d)
        ++ (if rest.isEmpty then "" else "." ++ String.mk (rest.map digitChar))
        ++ "e" ++ (if exp < 0 then "-" else "+")
        ++ (if a < 10 then "0" ++ natToDec a else natToDec a)
  else if decpt ≤ 0 then
    "0." ++ String.mk (List.replicate (-decpt).toNat '0') ++ String.mk (ds.map digitChar)
  else if ds.length ≤ decpt.toNat then
    String.mk (ds.map digitChar)
    ++ String.mk (List.replicate (decpt.toNat - ds.length) '0') ++ ".0"
  else
    String.mk ((ds.take decpt.toNat).map digitChar) ++ "."
    ++ String.mk ((ds.drop decpt.toNat).map digitChar)

/-- CPython `repr`/`str` of a float: `nan`, `inf`/`-inf`, `0.0`/`-0.0`,
and for finite nonzero values the shortest decimal that reads back to the
same double, laid out by `formatDigits`. -/
def pyFloatRepr : PyFloat → String
  | .nan => "nan"
  | .inf true => "-inf"
  | .inf false => "inf"
  | .finite neg m e =>
      if m = 0 then (if neg then "-0.0" else "0.0")
      else
        let boundary := m = 2 ^ 52 && decide (e > -1074)
        let start : Nat × Nat × Nat × Nat :=
          if 0 ≤ e then
            if boundary then (m * 2 ^ (e.toNat + 2), 4, 2 ^ (e.toNat + 1), 2 ^ e.toNat)
            else (m * 2 ^ (e.toNat + 1), 2, 2 ^ e.toNat, 2 ^ e.toNat)
          else
            if boundary then (m * 4, 2 ^ ((-e).toNat + 2), 2, 1)
            else (m * 2, 2 ^ ((-e).toNat + 1), 1, 1)
        let even := m % 2 = 0
        match drgFixup even 1200 start.1 start.2.1 start.2.2.1 start.2.2.2 0 with
        | (R, S, Mp, Mm, k) =>
            match genDigits even 60 R S Mp Mm [] with
            | Option.none => ""
            | some (ds, bump) =>
                (if neg then "-" else "")
                ++ formatDigits ds (if bump then k + 1 else k)

/-- The source's float round-trip test `str(float(s)) == s`
(Functor.py line 227): parse, print the shortest repr, compare. -/
def pyFloatRT (s : String) : Bool :=
  match pyFloatParse s with
  | Option.none => false
  | some v => pyFloatRepr v == s


/-- Models the source's int round-trip test `str(int(s)) == s`
(Functor.py line 233): it succeeds exactly on canonical decimals
`0` or `[-][1-9][0-9]*` and yields their value. -/
def pyIntCanon (s : String) : Option Int :=
  let canonNat : List Char → Option Nat := fun l =>
    if l.all Char.isDigit && !l.isEmpty && (l == ['0'] || l.head? != some '0')
    then some (digitsToNat l) else Option.none
  match s.data with
  | '-' :: rest =>
      match canonNat rest with
      | some n => if rest == ['0'] then Option.none else some (-(n : Int))
      | Option.none => Option.none
  | l => (canonNat l).map (fun n => (n : Int))

/-- Embeds `Functor.EvaluateToType` (Functor.py lines 192-242): `None` and the
literal text `"None"` become null; `bool`/`int`/`float` pass through;
mappings and sequences are evaluated recursively, keys and order preserved;
text is optionally interpolated and then cast by the boolean /
float-round-trip / int-round-trip cascade. -/
def EvaluateToType (attrs : List (String × PyVal)) (value : PyVal)
    (evaluateExpressions : Bool) : Except PyErr PyVal :=
  match value with
  | .none => .ok .none
  | .bool b => .ok (.bool b)
  | .int n => .ok (.int n)
  | .float q => .ok (.float q)
  | .dictNil => .ok .dictNil
  | .dictCons k v rest =>
      match EvaluateToType attrs v evaluateExpressions with
      | .error e => .error e
      | .ok v2 =>
          match EvaluateToType attrs rest evaluateExpressions with
          | .error e => .error e
          | .ok r2 => .ok (.dictCons k v2 r2)
  | .listNil => .ok .listNil
  | .listCons v rest =>
      match EvaluateToType attrs v evaluateExpressions with
      | .error e => .error e
      | .ok v2 =>
          match EvaluateToType attrs rest evaluateExpressions with
          | .error e => .error e
          | .ok r2 => .ok (.listCons v2 r2)
  | .str s =>
      if s = "None" then .ok .none
      else
        match (if evaluateExpressions && (pyContainsChar s '{' && pyContainsChar s '}')
               then pyFString attrs s else .ok s) with
        | .error e => .error e
        | .ok ev =>
            if pyLower ev = "false" then .ok (.bool false)
            else if pyLower ev = "true" then .ok (.bool true)
            else if pyFloatRT ev then .ok (.float ev)
            else
              match pyIntCanon ev with
              | some n => .ok (.int n)
              | Option.none => .ok (.str ev)

example : EvaluateToType [("count", PyVal.int 3)] (PyVal.str "{this.count}") true
    = .ok (PyVal.int 3) := rfl
example : EvaluateToType [] (PyVal.str "true") true = .ok (PyVal.bool true) := rfl
example : EvaluateToType [] (PyVal.str "3.0") true = .ok (PyVal.float "3.0") := rfl
example : EvaluateToType [] (PyVal.str "3") true = .ok (PyVal.int 3) := rfl
example : EvaluateToType [] (PyVal.str "hello") true = .ok (PyVal.str "hello") := rfl

/-!
Fidelity checks of the embedded float round-trip test against CPython's
`str(float(s)) == s` at representative points: shortest reprs in fixed and
exponent notation (including 16-digit significands, subnormals, the
largest double and negative zero) are accepted; non-repr spellings
(truncations, trailing zeros, non-canonical exponents, out-of-range and
non-lower-case forms) are rejected.
-/
example : pyFloatRT "3.0" = true := by decide
example : pyFloatRT "0.1" = true := by decide
example : pyFloatRT "1e-05" = true := by decide
example : pyFloatRT "inf" = true := by decide
example : pyFloatRT "nan" = true := by decide
example : pyFloatRT "5e-324" = true := by decide
example : pyFloatRT "1e+16" = true := by decide
example : pyFloatRT "1000000000000000.0" = true := by decide
example : pyFloatRT "1234567890123456.0" = true := by decide
example : pyFloatRT "9007199254740992.0" = true := by decide
example : pyFloatRT "0.0001" = true := by decide
example : pyFloatRT "0.30000000000000004" = true := by decide
example : pyFloatRT "1.7976931348623157e+308" = true := by decide
example : pyFloatRT "-0.0" = true := by decide
example : pyFloatRT "1.2345678901234568e+17" = true := by decide
example : pyFloatRT "2.675" = true := by decide
example : pyFloatRT "3.0517578125e-05" = true := by decide
example : pyFloatRT "3" = false := by decide
example : pyFloatRT "1e16" = false := by decide
example : pyFloatRT "9007199254740993" = false := by decide
example : pyFloatRT "2.5e-324" = false := by decide
example : pyFloatRT "1e400" = false := by decide
example : pyFloatRT "0.10" = false := by decide
example : pyFloatRT "1e-324" = false := by decide
example : pyFloatRT "10000000000000000.0" = false := by decide
example : pyFloatRT "0.00001" = false := by decide
example : pyFloatRT "0.3000000000000000444089209850062616169452667236328125" = false := by decide
example : pyFloatRT "Infinity" = false := by decide
example : pyFloatRT "1e+05" = false := by decide

/-- The embedded `Functor` state: object identity, attribute namespace
(`this.__dict__` as far as `Fetch`/`Set` touch it), the current call's
keyword arguments, the optional `config` mapping, the scope order
`fetchFrom`, the registered resolver identifiers `fetchLocations`
(populated from `fetchFrom` by `PopulateFetchLocations`; the base class
defines exactly the seven `fetch_location_*` methods embedded below), the
`precursor`/`executor` links (object references, represented by name and
resolved in a `World`), the static-argument declarations and flag, and the
`configNameOverrides` used by `Set`. -/
structure Functor where
  name : String
  attrs : List (String × PyVal)
  kwargs : List (String × PyVal)
  config : Option (List (String × PyVal))
  fetchFrom : List String
  fetchLocations : List String
  precursor : Option String
  executor : Option String
  staticKWArgs : List String
  staticArgsValid : Bool
  configNameOverrides : List (String × String)

/-- The object graph a resolution chain can reach, plus the two ambient
read-only scopes: interpreter `builtins` (scope `globals`) and the OS
environment (scope `environment`). -/
structure World where
  functors : List Functor
  globals : List (String × PyVal)
  env : List (String × String)

/-- Looks a functor up by name (dereferences a `precursor`/`executor`
object reference; in Python these references are always live, so a miss is
unreachable on closed worlds). -/
def World.find (w : World) (n : String) : Option Functor :=
  w.functors.find? (fun g => g.name == n)

/-- The default `fetchFrom` list set in `Functor.__init__`
(Functor.py lines 58-66). -/
def defaultFetchFrom : List String :=
  ["this", "args", "globals", "config", "precursor", "executor", "environment"]

/-- Python `setattr` on the attribute namespace: replace the existing
binding or append a new one. -/
def setAttr : List (String × PyVal) → String → PyVal → List (String × PyVal)
  | [], k, v => [(k, v)]
  | (k2, v2) :: rest, k, v =>
      if k2 = k then (k, v) :: rest else (k2, v2) :: setAttr rest k v

/-- Embeds `Functor.Set` (Functor.py lines 246-253): evaluate the value with
`EvaluateToType`, apply `configNameOverrides`, then `setattr`. -/
def Functor.Set (f : Functor) (varName : String) (value : PyVal)
    (evaluateExpressions : Bool) : Except PyErr Functor :=
  match EvaluateToType f.attrs value evaluateExpressions with
  | .error e => .error e
  | .ok v =>
      let n := match f.configNameOverrides.lookup varName with
        | some v2 => v2
        | Option.none => varName
      .ok { f with attrs := setAttr f.attrs n v }

/-- Python `list(set(xs))`.  CPython's set iteration order for strings is
hash-seed dependent and therefore unspecified; the embedding fixes the
representative order that keeps each element's first occurrence.  No
theorem below depends on the order of a `pySetList` result beyond its
membership. -/
def pySetList (l : List String) : List String :=
  l.foldl (fun acc x => if x ∈ acc then acc else acc ++ [x]) []

/-- The type of a scope resolver: given the variable name, default, the
scope order in effect and the (mutable, append-only) `attempted` list, it
produces `(value, found, attempted)` or raises.  The returned `attempted`
models the in-place mutation of the shared Python list. -/
abbrev Resolver := String → PyVal → List String → List String →
  Except PyErr (PyVal × Bool × List String)

/-- The type of a recursive-fetch entry point handed to the delegating
resolvers (`fetchCore` at one fuel lower). -/
abbrev RecFetch := Functor → String → PyVal → Option (List String) →
  List String → Except PyErr (PyVal × Bool × List String)

/-- Embeds `Functor.fetch_location_this` (Functor.py lines 654-657): the
functor's own attributes; found iff the attribute exists. -/
def fetch_location_this (f : Functor) : Resolver := fun varName d _ att =>
  match f.attrs.lookup varName with
  | some v => .ok (v, true, att)
  | Option.none => .ok (d, false, att)

/-- Embeds `Functor.fetch_location_args` (Functor.py lines 666-673): the current
call's keyword arguments, exact key match. -/
def fetch_location_args (f : Functor) : Resolver := fun varName d _ att =>
  match f.kwargs.lookup varName with
  | some v => .ok (v, true, att)
  | Option.none => .ok (d, false, att)

/-- Embeds `Functor.fetch_location_globals` (Functor.py lines 694-697): attributes
of the `builtins` module. -/
def fetch_location_globals (w : World) : Resolver := fun varName d _ att =>
  match w.globals.lookup varName with
  | some v => .ok (v, true, att)
  | Option.none => .ok (d, false, att)

/-- Embeds `Functor.fetch_location_config` (Functor.py lines 683-691): the
optional `config` mapping; reports not-found when absent. -/
def fetch_location_config (f : Functor) : Resolver := fun varName d _ att =>
  match f.config with
  | Option.none => .ok (d, false, att)
  | some c =>
      match c.lookup varName with
      | some v => .ok (v, true, att)
      | Option.none => .ok (d, false, att)

/-- Embeds `Functor.fetch_location_environment` (Functor.py lines 700-707):
`os.getenv` by the exact name, then by the upper-cased name. -/
def fetch_location_environment (w : World) : Resolver := fun varName d _ att =>
  match w.env.lookup varName with
  | some v => .ok (.str v, true, att)
  | Option.none =>
      match w.env.lookup (pyUpper varName) with
      | some v => .ok (.str v, true, att)
      | Option.none => .ok (d, false, att)

/-- Embeds `Functor.fetch_location_precursor` (Functor.py lines 660-663): with no
precursor, not-found; otherwise delegate via the precursor's
`FetchWithAndWithout(['this'], ['environment'], ..., start=False,
attempted)`.  Per the source of `FetchWithAndWithout` (lines 322-327) the
delegated scope order is built from the precursor's own `fetchFrom` (the
passed `fetchFrom` is bound to `currentFetchFrom` but never used): filter
out `'environment'`, then `list(set(... + ['this']))`. -/
def fetch_location_precursor (w : World) (recF : RecFetch) (f : Functor) : Resolver :=
  fun varName d _ att =>
    match f.precursor with
    | Option.none => .ok (d, false, att)
    | some p =>
        match World.find w p with
        | Option.none => .ok (d, false, att)
        | some pf =>
            recF pf varName d
              (some (pySetList ((pf.fetchFrom.filter (fun s => s ≠ "environment")) ++ ["this"])))
              att

/-- Embeds `Functor.fetch_location_executor` (Functor.py lines 678-679):
`this.GetExecutor().FetchWithout(['environment'], ..., start=False,
attempted)` with no `None` guard — when the executor reference is unset the
attribute access on `None` raises.  Per the source of `FetchWithout`
(lines 315-319) the delegated scope order is the executor's own `fetchFrom`
minus `'environment'` (the passed `fetchFrom` is ignored).  The executor
entity itself is out of scope of the core; modelled from the spec: the
orchestrating context's `FetchWithout` has "the same contract as the core
Resolver", so the executor is a `Functor` in the world. -/
def fetch_location_executor (w : World) (recF : RecFetch) (f : Functor) : Resolver :=
  fun varName d _ att =>
    match f.executor with
    | Option.none => .error .attributeError
    | some e =>
        match World.find w e with
        | Option.none => .ok (d, false, att)
        | some ef =>
            recF ef varName d
              (some (ef.fetchFrom.filter (fun s => s ≠ "environment")))
              att

/-- Dispatch of `this.fetchLocations[loc]` (the mapping built by
`PopulateFetchLocations` from `fetch_location_{loc}` methods; the base
class defines exactly these seven).  An identifier outside the seven would
never have been registered, so its branch is unreachable under
`fetchLocations ⊆ defaultFetchFrom`. -/
def resolveLoc (w : World) (recF : RecFetch) (f : Functor) (varName : String)
    (d : PyVal) (ff : List String) (loc : String) (att : List String) :
    Except PyErr (PyVal × Bool × List String) :=
  if loc = "this" then fetch_location_this f varName d ff att
  else if loc = "args" then fetch_location_args f varName d ff att
  else if loc = "globals" then fetch_location_globals w varName d ff att
  else if loc = "config" then fetch_location_config f varName d ff att
  else if loc = "precursor" then fetch_location_precursor w recF f varName d ff att
  else if loc = "executor" then fetch_location_executor w recF f varName d ff att
  else if loc = "environment" then fetch_location_environment w varName d ff att
  else .ok (d, false, att)

/-- The scope loop of `Functor.Fetch` (Functor.py lines 283-295): walk the
scope order, silently skip identifiers with no registered resolver, return
on the first `found`, threading the shared `attempted` list. -/
def fetchLoop (r : String → List String → Except PyErr (PyVal × Bool × List String))
    (reg : List String) (d : PyVal) :
    List String → List String → Except PyErr (PyVal × Bool × List String)
  | [], att => .ok (d, false, att)
  | loc :: rest, att =>
      if loc ∈ reg then
        match r loc att with
        | .error e => .error e
        | .ok (v, true, att2) => .ok (v, true, att2)
        | .ok (_, false, att2) => fetchLoop r reg d rest att2
      else fetchLoop r reg d rest att

/-- The body of `Functor.Fetch` (Functor.py lines 264-304) producing the
internal `(value, found, attempted)` triple: cycle guard on `attempted`,
append of the own name, default of the scope order, then the scope loop.
The `Nat` argument is the embedding's recursion budget; each delegation to
another functor consumes one unit, and `c1`'s theorem shows a budget above
the number of not-yet-visited world functors never runs out. -/
def fetchCore (w : World) : Nat → Functor → String → PyVal → Option (List String) →
    List String → Except PyErr (PyVal × Bool × List String)
  | 0, _, _, _, _, _ => .error .fuelOut
  | fuel + 1, f, varName, d, ffOpt, attempted =>
      if f.name ∈ attempted then .ok (d, false, attempted)
      else
        let att := attempted ++ [f.name]
        let ff := ffOpt.getD f.fetchFrom
        fetchLoop
          (resolveLoc w (fun pf vn d2 ff2 a2 => fetchCore w fuel pf vn d2 ff2 a2) f varName d ff)
          f.fetchLocations d ff att

/-- The two return shapes of `Fetch`: a bare value on a top (`start`) call,
a `(value, found)` pair on a nested call. -/
inductive FetchOut where
  | top : PyVal → FetchOut
  | nested : PyVal → Bool → FetchOut
  deriving DecidableEq

/-- Embeds `Functor.Fetch` as seen by callers: the internal triple shaped by the
`start` flag (Functor.py lines 270-273, 293-295, 300-304). -/
def Functor.Fetch (w : World) (fuel : Nat) (f : Functor) (varName : String)
    (d : PyVal) (ffOpt : Option (List String)) (start : Bool)
    (att : List String) : Except PyErr FetchOut :=
  match fetchCore w fuel f varName d ffOpt att with
  | .error e => .error e
  | .ok (v, found, _) => .ok (if start then .top v else .nested v found)

/-- Embeds `Functor.FetchWith` (Functor.py lines 308-312): scope order
`list(set(currentFetchFrom + doFetchFrom))` where `currentFetchFrom`
defaults to `this.fetchFrom`. -/
def Functor.FetchWith (w : World) (fuel : Nat) (f : Functor)
    (doFetchFrom : List String) (varName : String) (d : PyVal)
    (currentFetchFrom : Option (List String)) (att : List String) :
    Except PyErr (PyVal × Bool × List String) :=
  let cur := currentFetchFrom.getD f.fetchFrom
  fetchCore w fuel f varName d (some (pySetList (cur ++ doFetchFrom))) att

/-- Embeds `Functor.FetchWithout` (Functor.py lines 315-319).  The source binds
`currentFetchFrom` (defaulting it to `this.fetchFrom`) but then filters
`this.fetchFrom`, not `currentFetchFrom`; the embedding preserves that. -/
def Functor.FetchWithout (w : World) (fuel : Nat) (f : Functor)
    (dontFetchFrom : List String) (varName : String) (d : PyVal)
    (currentFetchFrom : Option (List String)) (att : List String) :
    Except PyErr (PyVal × Bool × List String) :=
  fetchCore w fuel f varName d
    (some (f.fetchFrom.filter (fun s => s ∉ dontFetchFrom))) att

/-- Embeds `Functor.FetchWithAndWithout` (Functor.py lines 322-327): filter
`this.fetchFrom` (again ignoring the bound `currentFetchFrom`), then
`list(set(... + doFetchFrom))`. -/
def Functor.FetchWithAndWithout (w : World) (fuel : Nat) (f : Functor)
    (doFetchFrom : List String) (dontFetchFrom : List String)
    (varName : String) (d : PyVal) (currentFetchFrom : Option (List String))
    (att : List String) : Except PyErr (PyVal × Bool × List String) :=
  fetchCore w fuel f varName d
    (some (pySetList ((f.fetchFrom.filter (fun s => s ∉ dontFetchFrom)) ++ doFetchFrom))) att

/-- A functor with every optional piece empty, used as the base of the
concrete test worlds. -/
def blankFunctor (n : String) : Functor :=
  { name := n, attrs := [], kwargs := [], config := Option.none,
    fetchFrom := defaultFetchFrom, fetchLocations := defaultFetchFrom,
    precursor := Option.none, executor := Option.none,
    staticKWArgs := [], staticArgsValid := false, configNameOverrides := [] }

/-- Scope-precedence example operation: `x` is a call argument and an
environment variable. -/
def gPrec : Functor := { (blankFunctor "G") with kwargs := [("x", PyVal.str "a")] }

/-- World for the scope-precedence example. -/
def wPrec : World := { functors := [gPrec], globals := [], env := [("x", "b")] }

/-- Predecessor whose own attribute namespace holds `y`; its scope order
omits `executor`/`environment` (an operation never configured with an
executor scope), keeping the example free of unrelated errors. -/
def aPre : Functor :=
  { (blankFunctor "A") with
    attrs := [("y", PyVal.int 42)],
    fetchFrom := ["this", "args", "globals", "config", "precursor"],
    fetchLocations := ["this", "args", "globals", "config", "precursor"] }

/-- Successor linked to `aPre` as its precursor. -/
def bPre : Functor :=
  { (blankFunctor "B") with
    precursor := some "A",
    fetchFrom := ["this", "args", "globals", "config", "precursor"],
    fetchLocations := ["this", "args", "globals", "config", "precursor"] }

/-- World for the precursor-delegation example. -/
def wPre : World := { functors := [aPre, bPre], globals := [], env := [] }

/-- Operation whose attribute `x` and call argument `x` differ, for the
`FetchWith*` variants. -/
def fVar : Functor :=
  { (blankFunctor "F") with
    attrs := [("x", PyVal.int 1)],
    kwargs := [("x", PyVal.int 2)],
    fetchFrom := ["this", "args"], fetchLocations := ["this", "args"] }

/-- World for the `FetchWith*` example. -/
def wVar : World := { functors := [fVar], globals := [], env := [] }

/-- Operation with no executor attached and the default scope order. -/
def eNone : Functor := blankFunctor "E"

/-- World for the unset-executor example. -/
def wNone : World := { functors := [eNone], globals := [], env := [] }

/-- Two operations forming a precursor cycle by name. -/
def aCyc : Functor :=
  { (blankFunctor "A") with
    precursor := some "B",
    fetchFrom := ["this", "precursor"], fetchLocations := ["this", "precursor"] }

/-- Second half of the cycle. -/
def bCyc : Functor :=
  { (blankFunctor "B") with
    precursor := some "A",
    fetchFrom := ["this", "precursor"], fetchLocations := ["this", "precursor"] }

/-- World with a cyclic predecessor chain. -/
def wCyc : World := { functors := [aCyc, bCyc], globals := [], env := [] }

example : fetchCore wPrec 2 gPrec "x" PyVal.none Option.none []
    = .ok (PyVal.str "a", true, ["G"]) := rfl
example : fetchCore wPrec 2 gPrec "x" PyVal.none (some ["environment"]) []
    = .ok (PyVal.str "b", true, ["G"]) := rfl
example : fetchCore wPre 3 bPre "y" PyVal.none Option.none []
    = .ok (PyVal.int 42, true, ["B", "A"]) := rfl
example : fetchCore wPre 2 aPre "y" PyVal.none
    (some (aPre.fetchFrom.filter (fun s => s ∉ (["this", "environment"] : List String)))) ["B"]
    = .ok (PyVal.none, false, ["B", "A"]) := rfl
example : Functor.FetchWithout wVar 2 fVar [] "x" PyVal.none (some ["args"]) []
    = .ok (PyVal.int 1, true, ["F"]) := rfl
example : fetchCore wVar 2 fVar "x" PyVal.none (some ["args"]) []
    = .ok (PyVal.int 2, true, ["F"]) := rfl
example : fetchCore wNone 2 eNone "v" PyVal.none Option.none []
    = .error .attributeError := rfl
example : fetchCore wCyc 3 aCyc "z" PyVal.none Option.none []
    = .ok (PyVal.none, false, ["A", "B"]) := rfl

/-- Python `list(dict.fromkeys(xs))`: deduplication preserving the first
occurrence of each element (Functor.py line 339). -/
def pyDedup (l : List String) : List String :=
  l.foldl (fun acc x => if x ∈ acc then acc else acc ++ [x]) []

/-- Python's `for arg in lst: ... lst.remove(arg)` iteration semantics
(Functor.py lines 341-344): the list iterator reads by index, so removing
the current element shifts the remainder left and the following element is
skipped.  `steps` bounds the iteration count; since the index rises by one
per step and the list never grows, `lst.length` steps always suffice. -/
def pyForRemoveGo (opt : List String) : Nat → List String → Nat → List String
  | 0, l, _ => l
  | steps + 1, l, i =>
      if h : i < l.length then
        let x := l.get ⟨i, h⟩
        pyForRemoveGo opt steps (if x ∈ opt then l.erase x else l) (i + 1)
      else l

/-- The `for arg in this.requiredKWArgs: ... remove` loop of
`RemoveDuplicateArgs`, from index 0. -/
def pyForRemove (opt : List String) (l : List String) : List String :=
  pyForRemoveGo opt l.length l 0

/-- The declared-argument lists `RemoveDuplicateArgs` operates on. -/
structure ArgLists where
  requiredKWArgs : List String
  requiredMethods : List String
  requiredPrograms : List String
  optionalKWArgs : List (String × PyVal)

/-- Embeds `Functor.RemoveDuplicateArgs` (Functor.py lines 332-344): deduplicate
the three required lists via `dict.fromkeys`, then iterate over
`requiredKWArgs` removing (in place) every name that is also an optional
argument. -/
def RemoveDuplicateArgs (a : ArgLists) : ArgLists :=
  { requiredKWArgs :=
      pyForRemove (a.optionalKWArgs.map Prod.fst) (pyDedup a.requiredKWArgs),
    requiredMethods := pyDedup a.requiredMethods,
    requiredPrograms := pyDedup a.requiredPrograms,
    optionalKWArgs := a.optionalKWArgs }

example :
    (RemoveDuplicateArgs
      { requiredKWArgs := ["a", "b"], requiredMethods := [],
        requiredPrograms := [],
        optionalKWArgs := [("a", PyVal.int 1), ("b", PyVal.int 2)] }).requiredKWArgs
    = ["b"] := rfl

/-- The loop of `Functor.ValidateStaticArgs` (Functor.py lines 366-378):
for each static name, skip it when it is already an attribute, otherwise
`Fetch` it (top call, default `None`, default scope order, fresh `attempted`
list); a `None` result raises `MissingArgumentError`, otherwise the value
is stored with `Set`.  Returns the updated functor and the names that were
fetched, in order. -/
def validateStaticGo (w : World) (fuel : Nat) :
    Functor → List String → List String → Except PyErr (Functor × List String)
  | f, [], fetched => .ok ({ f with staticArgsValid := true }, fetched)
  | f, skw :: rest, fetched =>
      if (f.attrs.lookup skw).isSome then validateStaticGo w fuel f rest fetched
      else
        match fetchCore w fuel f skw PyVal.none Option.none [] with
        | .error e => .error e
        | .ok (v, _, _) =>
            match v with
            | PyVal.none => .error .missingArgument
            | v =>
                match Functor.Set f skw v true with
                | .error e => .error e
                | .ok f2 => validateStaticGo w fuel f2 rest (fetched ++ [skw])

/-- Embeds `Functor.ValidateStaticArgs` (Functor.py lines 362-378): a no-op once
`staticArgsValid` is set; otherwise resolve the static arguments and set
the flag. -/
def ValidateStaticArgs (w : World) (fuel : Nat) (f : Functor) :
    Except PyErr (Functor × List String) :=
  if f.staticArgsValid then .ok (f, []) else validateStaticGo w fuel f f.staticKWArgs []

/-- Operation with a static argument that no enabled scope can resolve. -/
def sFail : Functor :=
  { (blankFunctor "S") with
    staticKWArgs := ["x"],
    fetchFrom := ["this", "args"], fetchLocations := ["this", "args"] }

/-- World for the unresolvable-static-argument example. -/
def wSFail : World := { functors := [sFail], globals := [], env := [] }

example : ValidateStaticArgs wSFail 2 sFail = .error .missingArgument := rfl

/-- Operation with a static argument resolvable from the call arguments. -/
def sOk : Functor :=
  { (blankFunctor "S") with
    staticKWArgs := ["x"], kwargs := [("x", PyVal.int 5)],
    fetchFrom := ["this", "args"], fetchLocations := ["this", "args"] }

/-- World for the resolvable-static-argument example. -/
def wSOk : World := { functors := [sOk], globals := [], env := [] }

example : ValidateStaticArgs wSOk 2 sOk
    = .ok ({ sOk with attrs := [("x", PyVal.int 5)], staticArgsValid := true }, ["x"]) := rfl

/-- The behavioural parameters of one `__call__` invocation
(Functor.py lines 574-625): whether the setup steps inside `WarmUp` raise
(`WarmUp` re-raises only when `raiseExceptions` is set, else it swallows),
what the success predicates of the primary and rollback capabilities
return, the `enableRollback`/`raiseExceptions` flags, whether the successor
queue `next` is non-empty, whether an executor is attached, and the value
`this.result` held before the invocation. -/
structure CallCfg where
  setupFails : Bool
  functionSucceeds : Bool
  rollbackSucceeds : Bool
  enableRollback : Bool
  raiseExceptions : Bool
  hasNext : Bool
  hasExecutor : Bool
  prevResult : Nat

/-- Observable outcome of one `__call__` invocation: the final `result`
code, whether the invocation raised, whether the after-hook
(`After{callMethod}`, line 606) ran, whether a queued successor was
dispatched through the executor, and whether `FunctorTracker.Pop`
(line 622) was reached. -/
structure CallOut where
  result : Nat
  raised : Bool
  afterHookRan : Bool
  nextDispatched : Bool
  popped : Bool
  deriving DecidableEq

/-- Embeds `Functor.CallNext` (Functor.py lines 520-543): `None` when the queue is
empty; `InvalidNext` when a successor is queued but no executor is
attached (`ValidateNext` defaults to accepting); otherwise the executor
dispatches the successor.  Returns whether a dispatch happened. -/
def CallNextModel (cfg : CallCfg) : Except PyErr Bool :=
  if !cfg.hasNext then .ok false
  else if !cfg.hasExecutor then .error .invalidNext
  else .ok true

/-- Embeds `Functor.__call__` (Functor.py lines 574-625).  `FunctorTracker.Push`
runs unconditionally on entry; the `try` block runs `WarmUp`, the
before-hook, the primary capability, the success checks, rollback and
chaining, then the after-hook; the `except` block re-raises when
`raiseExceptions` is set; line 615 raises `FunctorError` when
`raiseExceptions` is set and `result > 1`; `FunctorTracker.Pop` (line 622)
runs only after that check, so a raising exit never reaches it. -/
def pyCall (cfg : CallCfg) : CallOut :=
  if cfg.setupFails && cfg.raiseExceptions then
    { result := cfg.prevResult, raised := true, afterHookRan := false,
      nextDispatched := false, popped := false }
  else
    let afterwards : Nat → Bool → CallOut := fun res disp =>
      if cfg.raiseExceptions && decide (res > 1) then
        { result := res, raised := true, afterHookRan := true,
          nextDispatched := disp, popped := false }
      else
        { result := res, raised := false, afterHookRan := true,
          nextDispatched := disp, popped := true }
    let chainFrom : Nat → CallOut := fun res =>
      match CallNextModel cfg with
      | .error _ =>
          if cfg.raiseExceptions then
            { result := res, raised := true, afterHookRan := false,
              nextDispatched := false, popped := false }
          else
            { result := res, raised := false, afterHookRan := false,
              nextDispatched := false, popped := true }
      | .ok disp => afterwards res disp
    if cfg.functionSucceeds then chainFrom 0
    else if cfg.enableRollback then
      if cfg.rollbackSucceeds then chainFrom 1
      else afterwards 2 false
    else afterwards 3 false

example :
    pyCall { setupFails := false, functionSucceeds := false,
             rollbackSucceeds := false, enableRollback := false,
             raiseExceptions := true, hasNext := false, hasExecutor := false,
             prevResult := 0 }
    = { result := 3, raised := true, afterHookRan := true,
        nextDispatched := false, popped := false } := rfl

/-- The names of the functors reachable in a world. -/
def worldNames (w : World) : List String := w.functors.map Functor.name

/-- How many world functors the `attempted` list has not yet visited: the
termination measure of `Fetch`'s delegation recursion. -/
def freshCount (w : World) (att : List String) : Nat :=
  ((worldNames w).filter (fun n => decide (n ∉ att))).length

lemma length_filter_le_of_imp {l : List String} {p q : String → Bool}
    (h : ∀ x, q x = true → p x = true) :
    (l.filter q).length ≤ (l.filter p).length := by
  induction l with
  | nil => simp
  | cons hd tl ih =>
      by_cases hq : q hd = true
      · have hp := h hd hq
        simp only [List.filter, hq, hp, List.length_cons]
        omega
      · simp only [List.filter, Bool.not_eq_true] at hq ⊢
        rw [hq]
        cases hp : p hd <;> simp only [List.length_cons] <;> omega

lemma length_filter_lt_of_mem {l : List String} {p q : String → Bool}
    (h : ∀ x, q x = true → p x = true) {x : String} (hx : x ∈ l)
    (hpx : p x = true) (hqx : q x = false) :
    (l.filter q).length < (l.filter p).length := by
  induction l with
  | nil => cases hx
  | cons hd tl ih =>
      rcases List.mem_cons.mp hx with hh | ht
      · subst hh
        simp only [List.filter, hqx, hpx, List.length_cons]
        have := length_filter_le_of_imp (l := tl) h
        omega
      · have htl := ih ht
        by_cases hq : q hd = true
        · have hp := h hd hq
          simp only [List.filter, hq, hp, List.length_cons]
          omega
        · simp only [Bool.not_eq_true] at hq
          simp only [List.filter, hq]
          cases hp : p hd <;> simp only [List.length_cons] <;> omega

lemma freshCount_le_of_subset (w : World) {s t : List String} (h : s ⊆ t) :
    freshCount w t ≤ freshCount w s := by
  apply length_filter_le_of_imp
  intro x hx
  simp only [decide_eq_true_eq] at hx ⊢
  exact fun hmem => hx (h hmem)

lemma freshCount_append_lt (w : World) {att : List String} {n : String}
    (hn : n ∈ worldNames w) (h : n ∉ att) :
    freshCount w (att ++ [n]) < freshCount w att := by
  apply length_filter_lt_of_mem (x := n)
  · intro x hx
    simp only [decide_eq_true_eq] at hx ⊢
    exact fun hmem => hx (List.mem_append_left _ hmem)
  · exact hn
  · simp only [decide_eq_true_eq]
    exact h
  · simp only [decide_eq_false_iff_not, not_not]
    exact List.mem_append_right _ (List.mem_singleton.mpr rfl)

lemma fetchLoop_grows {r : String → List String → Except PyErr (PyVal × Bool × List String)}
    {reg : List String} {d : PyVal}
    (hr : ∀ loc a v b a2, r loc a = .ok (v, b, a2) → a ⊆ a2) :
    ∀ locs att v b att2, fetchLoop r reg d locs att = .ok (v, b, att2) → att ⊆ att2 := by
  intro locs
  induction locs with
  | nil =>
      intro att v b att2 hres
      simp only [fetchLoop] at hres
      injection hres with h
      injection h with h1 h2
      injection h2 with h3 h4
      subst h4
      exact List.Subset.refl _
  | cons loc rest ih =>
      intro att v b att2 hres
      simp only [fetchLoop] at hres
      by_cases hmem : loc ∈ reg
      · rw [if_pos hmem] at hres
        cases hcall : r loc att with
        | error e => rw [hcall] at hres; cases hres
        | ok t =>
            obtain ⟨v2, b2, a2⟩ := t
            have hsub : att ⊆ a2 := hr loc att v2 b2 a2 hcall
            rw [hcall] at hres
            cases b2 with
            | true =>
                injection hres with h
                injection h with h1 h2
                injection h2 with h3 h4
                subst h4
                exact hsub
            | false =>
                exact hsub.trans (ih a2 v b att2 hres)
      · rw [if_neg hmem] at hres
        exact ih att v b att2 hres

lemma resolveLoc_grows {w : World} {recF : RecFetch} {f : Functor}
    {varName : String} {d : PyVal} {ff : List String} {loc : String}
    {a : List String} {v : PyVal} {b : Bool} {a2 : List String}
    (hrec : ∀ pf vn d2 ff2 aa v2 b2 aa2, recF pf vn d2 ff2 aa = .ok (v2, b2, aa2) → aa ⊆ aa2)
    (hres : resolveLoc w recF f varName d ff loc a = .ok (v, b, a2)) : a ⊆ a2 := by
  have keep : ∀ v3 : PyVal, ∀ b3 : Bool,
      (Except.ok (v3, b3, a) : Except PyErr (PyVal × Bool × List String)) = .ok (v, b, a2) →
      a ⊆ a2 := by
    intro v3 b3 h
    injection h with h
    injection h with h1 h2
    injection h2 with h3 h4
    subst h4
    exact List.Subset.refl _
  simp only [resolveLoc, fetch_location_this, fetch_location_args,
    fetch_location_globals, fetch_location_config, fetch_location_precursor,
    fetch_location_executor, fetch_location_environment] at hres
  split_ifs at hres
  all_goals repeat' split at hres
  all_goals
    first
      | exact keep _ _ hres
      | cases hres
      | exact hrec _ _ _ _ _ _ _ _ hres

/-- Lemma: `Fetch` only ever appends to the shared `attempted` list. -/
lemma fetchCore_grows (w : World) : ∀ fuel (f : Functor) (vn : String) (d : PyVal)
    (ffOpt : Option (List String)) (att : List String) v b att2,
    fetchCore w fuel f vn d ffOpt att = .ok (v, b, att2) → att ⊆ att2 := by
  intro fuel
  induction fuel with
  | zero => intro f vn d ffOpt att v b att2 h; cases h
  | succ fuel ih =>
      intro f vn d ffOpt att v b att2 h
      simp only [fetchCore] at h
      by_cases hmem : f.name ∈ att
      · rw [if_pos hmem] at h
        injection h with h
        injection h with h1 h2
        injection h2 with h3 h4
        subst h4
        exact List.Subset.refl _
      · rw [if_neg hmem] at h
        have hloop := fetchLoop_grows
          (fun loc a v2 b2 a2 hr => resolveLoc_grows
            (fun pf vn2 d2 ff2 aa v3 b3 aa2 hrr => ih pf vn2 d2 ff2 aa v3 b3 aa2 hrr) hr)
          _ _ _ _ _ h
        exact (List.subset_append_left att [f.name]).trans hloop

lemma fetchLoop_ne_fuelOut
    {r : String → List String → Except PyErr (PyVal × Bool × List String)}
    {reg : List String} {d : PyVal} (Inv : List String → Prop)
    (hpres : ∀ loc a v a2, Inv a → r loc a = .ok (v, false, a2) → Inv a2)
    (hne : ∀ loc a, Inv a → r loc a ≠ .error .fuelOut) :
    ∀ locs a, Inv a → fetchLoop r reg d locs a ≠ .error .fuelOut := by
  intro locs
  induction locs with
  | nil => intro a _ h; cases h
  | cons loc rest ih =>
      intro a hInv h
      simp only [fetchLoop] at h
      by_cases hmem : loc ∈ reg
      · rw [if_pos hmem] at h
        cases hcall : r loc a with
        | error e =>
            rw [hcall] at h
            injection h with h2
            subst h2
            exact hne loc a hInv hcall
        | ok t =>
            obtain ⟨v2, b2, a2⟩ := t
            rw [hcall] at h
            cases b2 with
            | true => cases h
            | false => exact ih a2 (hpres loc a v2 a2 hInv hcall) h
      · rw [if_neg hmem] at h
        exact ih a hInv h

lemma resolveLoc_ne_fuelOut {w : World} {recF : RecFetch} {f : Functor}
    {varName : String} {d : PyVal} {ff : List String} {loc : String}
    {a : List String}
    (h : ∀ pf, pf ∈ w.functors → ∀ vn d2 ff2, recF pf vn d2 ff2 a ≠ .error .fuelOut) :
    resolveLoc w recF f varName d ff loc a ≠ .error .fuelOut := by
  intro hres
  simp only [resolveLoc, fetch_location_this, fetch_location_args,
    fetch_location_globals, fetch_location_config, fetch_location_precursor,
    fetch_location_executor, fetch_location_environment] at hres
  split_ifs at hres
  all_goals repeat' split at hres
  all_goals
    first
      | cases hres
      | exact absurd hres (by
          rename_i pf hfind
          exact h pf (List.mem_of_find?_eq_some hfind) _ _ _)

/-- A fuel budget exceeding the number of not-yet-visited world functors
never runs out: the cycle guard cuts every delegation chain first. -/
lemma fetchCore_ne_fuelOut (w : World) : ∀ fuel (f : Functor), f ∈ w.functors →
    ∀ vn d ffOpt att, freshCount w att < fuel →
    fetchCore w fuel f vn d ffOpt att ≠ .error .fuelOut := by
  intro fuel
  induction fuel with
  | zero => intro f _ vn d ffOpt att hlt; omega
  | succ fuel ih =>
      intro f hf vn d ffOpt att hlt h
      simp only [fetchCore] at h
      by_cases hmem : f.name ∈ att
      · rw [if_pos hmem] at h; cases h
      · rw [if_neg hmem] at h
        have hstrict : freshCount w (att ++ [f.name]) < freshCount w att :=
          freshCount_append_lt w (List.mem_map.mpr ⟨f, hf, rfl⟩) hmem
        refine fetchLoop_ne_fuelOut (fun a => att ++ [f.name] ⊆ a) ?_ ?_ _ _
          (List.Subset.refl _) h
        · intro loc a v a2 hInv hcall
          exact hInv.trans (resolveLoc_grows
            (fun pf vn2 d2 ff2 aa v3 b3 aa2 hrr =>
              fetchCore_grows w fuel pf vn2 d2 ff2 aa v3 b3 aa2 hrr) hcall)
        · intro loc a hInv
          apply resolveLoc_ne_fuelOut
          intro pf hpf vn2 d2 ff2
          apply ih pf hpf
          have := freshCount_le_of_subset w hInv
          omega

/-- C1: when the calling operation's name is already in the visited
(`attempted`) list, `Fetch` immediately returns the default — bare on a top
call, paired with `found = false` on a nested call — leaving `attempted`
untouched and consulting no scope; and because every operation appends its
own name to the shared visited list before delegating, `Fetch` terminates
on every finite (possibly cyclic by name) precursor/executor graph: any
fuel budget above the number of not-yet-visited world functors is never
exhausted. -/
theorem c1_fetch_cycle_guard_and_termination :
    (∀ (w : World) (fuel : Nat) (f : Functor) (vn : String) (d : PyVal)
        (ffOpt : Option (List String)) (att : List String), f.name ∈ att →
        fetchCore w (fuel + 1) f vn d ffOpt att = .ok (d, false, att)
        ∧ Functor.Fetch w (fuel + 1) f vn d ffOpt true att = .ok (.top d)
        ∧ Functor.Fetch w (fuel + 1) f vn d ffOpt false att = .ok (.nested d false))
    ∧ (∀ (w : World) (f : Functor), f ∈ w.functors →
        ∀ (vn : String) (d : PyVal) (ffOpt : Option (List String))
          (att : List String) (fuel : Nat), freshCount w att < fuel →
        fetchCore w fuel f vn d ffOpt att ≠ .error .fuelOut) := by
  constructor
  · intro w fuel f vn d ffOpt att hmem
    have hcore : fetchCore w (fuel + 1) f vn d ffOpt att = .ok (d, false, att) := by
      simp only [fetchCore, if_pos hmem]
    exact ⟨hcore, by simp [Functor.Fetch, hcore], by simp [Functor.Fetch, hcore]⟩
  · intro w f hf vn d ffOpt att fuel hlt
    exact fetchCore_ne_fuelOut w fuel f hf vn d ffOpt att hlt

/-- C1 witness: in the two-element precursor cycle `A ⇄ B`, the guard
returns the default unchanged once `A` is visited, and a fuel budget of 3
(above the 2 world functors) is not exhausted by a fetch from `A`. -/
theorem c1_fetch_cycle_guard_and_termination_witness :
    fetchCore wCyc 1 aCyc "z" PyVal.none Option.none ["A"]
      = .ok (PyVal.none, false, ["A"])
    ∧ fetchCore wCyc 3 aCyc "z" PyVal.none Option.none [] ≠ .error .fuelOut := by
  constructor
  · exact (c1_fetch_cycle_guard_and_termination.1 wCyc 0 aCyc "z" PyVal.none
      Option.none ["A"] (by decide)).1
  · exact c1_fetch_cycle_guard_and_termination.2 wCyc aCyc (List.Mem.head _)
      "z" PyVal.none Option.none [] 3 (by decide)

/-- C2: the scope loop of `Fetch` consults exactly the identifiers of the
given scope order, in order: an identifier with no registered resolver is
silently skipped (the loop result is that of the remaining order and the
`attempted` list is not touched by it); the first resolver reporting
`found = true` fixes the returned value and the rest of the order is never
consulted; a resolver reporting `found = false` passes control (and the
threaded `attempted` list) to the remaining order; an exhausted order
yields the caller's default with `found = false`; `fetchCore` runs this
loop on `scopeOrder` defaulting to the operation's `fetchFrom`.
Concretely, with `x` both a call argument (`"a"`) and an environment
variable (`"b"`) and `args` listed before `environment`, the call-argument
value wins, while an explicit `["environment"]` order yields the
environment value. -/
theorem c2_fetch_scope_order :
    (∀ (r : String → List String → Except PyErr (PyVal × Bool × List String))
        (reg : List String) (d : PyVal) (att : List String),
        fetchLoop r reg d [] att = .ok (d, false, att))
    ∧ (∀ (r : String → List String → Except PyErr (PyVal × Bool × List String))
        (reg : List String) (d : PyVal) (loc : String) (rest : List String)
        (att : List String), loc ∉ reg →
        fetchLoop r reg d (loc :: rest) att = fetchLoop r reg d rest att)
    ∧ (∀ (r : String → List String → Except PyErr (PyVal × Bool × List String))
        (reg : List String) (d : PyVal) (loc : String) (rest : List String)
        (att : List String) (v : PyVal) (att2 : List String), loc ∈ reg →
        r loc att = .ok (v, true, att2) →
        fetchLoop r reg d (loc :: rest) att = .ok (v, true, att2))
    ∧ (∀ (r : String → List String → Except PyErr (PyVal × Bool × List String))
        (reg : List String) (d : PyVal) (loc : String) (rest : List String)
        (att : List String) (v : PyVal) (att2 : List String), loc ∈ reg →
        r loc att = .ok (v, false, att2) →
        fetchLoop r reg d (loc :: rest) att = fetchLoop r reg d rest att2)
    ∧ (∀ (w : World) (fuel : Nat) (f : Functor) (vn : String) (d : PyVal)
        (ffOpt : Option (List String)) (att : List String), f.name ∉ att →
        fetchCore w (fuel + 1) f vn d ffOpt att =
          fetchLoop
            (resolveLoc w (fun pf vn2 d2 ff2 a2 => fetchCore w fuel pf vn2 d2 ff2 a2)
              f vn d (ffOpt.getD f.fetchFrom))
            f.fetchLocations d (ffOpt.getD f.fetchFrom) (att ++ [f.name]))
    ∧ fetchCore wPrec 2 gPrec "x" PyVal.none Option.none []
        = .ok (PyVal.str "a", true, ["G"])
    ∧ fetchCore wPrec 2 gPrec "x" PyVal.none (some ["environment"]) []
        = .ok (PyVal.str "b", true, ["G"]) := by
  refine ⟨?_, ?_, ?_, ?_, ?_, rfl, rfl⟩
  · intro r reg d att
    simp [fetchLoop]
  · intro r reg d loc rest att hmem
    simp [fetchLoop, if_neg hmem]
  · intro r reg d loc rest att v att2 hmem hcall
    simp [fetchLoop, if_pos hmem, hcall]
  · intro r reg d loc rest att v att2 hmem hcall
    simp [fetchLoop, if_pos hmem, hcall]
  · intro w fuel f vn d ffOpt att hmem
    simp [fetchCore, if_neg hmem]

/-- C2 witness: a concrete application of each quantified clause — the
skip clause removes the unregistered identifier `zzz`, leaving the empty
order, which yields the default. -/
theorem c2_fetch_scope_order_witness :
    fetchLoop (fun _ a => (Except.ok (PyVal.none, false, a) :
        Except PyErr (PyVal × Bool × List String))) ["this"] PyVal.none ["zzz"] []
      = .ok (PyVal.none, false, []) := by
  have h := c2_fetch_scope_order
  rw [h.2.1 _ ["this"] PyVal.none "zzz" [] [] (by decide)]
  exact h.1 _ ["this"] PyVal.none []

/-- C10: with no executor attached, the `executor` scope resolver
dereferences `None` and raises (an `AttributeError`), rather than skipping
or returning the default; the `precursor` resolver is asymmetric, reporting
not-found when the precursor is `None`; a resolver error propagates out of
the scope loop; and concretely, a default-scope-order fetch on an
executor-less operation that finds the name nowhere earlier raises. -/
theorem c10_executor_scope_raises_when_unset :
    (∀ (w : World) (recF : RecFetch) (f : Functor) (vn : String) (d : PyVal)
        (ff : List String) (att : List String), f.executor = Option.none →
        fetch_location_executor w recF f vn d ff att = .error .attributeError)
    ∧ (∀ (w : World) (recF : RecFetch) (f : Functor) (vn : String) (d : PyVal)
        (ff : List String) (att : List String), f.precursor = Option.none →
        fetch_location_precursor w recF f vn d ff att = .ok (d, false, att))
    ∧ (∀ (r : String → List String → Except PyErr (PyVal × Bool × List String))
        (reg : List String) (d : PyVal) (loc : String) (rest : List String)
        (att : List String) (e : PyErr), loc ∈ reg → r loc att = .error e →
        fetchLoop r reg d (loc :: rest) att = .error e)
    ∧ fetchCore wNone 2 eNone "v" PyVal.none Option.none []
        = .error .attributeError := by
  refine ⟨?_, ?_, ?_, rfl⟩
  · intro w recF f vn d ff att he
    simp [fetch_location_executor, he]
  · intro w recF f vn d ff att hp
    simp [fetch_location_precursor, hp]
  · intro r reg d loc rest att e hmem hcall
    simp [fetchLoop, if_pos hmem, hcall]

/-- C10 witness: the clauses applied to the concrete executor-less
operation `eNone`. -/
theorem c10_executor_scope_raises_when_unset_witness :
    fetch_location_executor wNone (fun pf vn d2 ff2 a2 => fetchCore wNone 1 pf vn d2 ff2 a2)
      eNone "v" PyVal.none defaultFetchFrom [] = .error .attributeError
    ∧ fetch_location_precursor wNone (fun pf vn d2 ff2 a2 => fetchCore wNone 1 pf vn d2 ff2 a2)
      eNone "v" PyVal.none defaultFetchFrom [] = .ok (PyVal.none, false, []) := by
  have h := c10_executor_scope_raises_when_unset
  exact ⟨h.1 wNone _ eNone "v" PyVal.none defaultFetchFrom [] rfl,
    h.2.1 wNone _ eNone "v" PyVal.none defaultFetchFrom [] rfl⟩

lemma pySetList_mem_aux : ∀ (l acc : List String) (x : String),
    x ∈ l.foldl (fun acc x => if x ∈ acc then acc else acc ++ [x]) acc ↔
      x ∈ acc ∨ x ∈ l := by
  intro l
  induction l with
  | nil => simp
  | cons hd tl ih =>
      intro acc x
      simp only [List.foldl_cons]
      by_cases hmem : hd ∈ acc
      · rw [if_pos hmem, ih]
        simp only [List.mem_cons]
        constructor
        · rintro (h | h)
          · exact Or.inl h
          · exact Or.inr (Or.inr h)
        · rintro (h | rfl | h)
          · exact Or.inl h
          · exact Or.inl hmem
          · exact Or.inr h
      · rw [if_neg hmem, ih]
        simp only [List.mem_append, List.mem_singleton, List.mem_cons]
        tauto

/-- Membership in the embedded `list(set(xs))` is membership in `xs`. -/
lemma pySetList_mem {l : List String} {x : String} : x ∈ pySetList l ↔ x ∈ l := by
  simp [pySetList, pySetList_mem_aux]

/-- C5 counterexample: the claim predicts the `precursor` scope delegates
with the predecessor's `self` scope excluded, so a value held only in the
predecessor's own attributes (`aPre.attrs` holds `y = 42`) should be
invisible and the fetch should fall back to the default.  The code's
delegation (`FetchWithAndWithout(['this'], ['environment'], ...)`) in fact
ADDS the `this` scope: the successor's fetch of `y` returns 42, and the
actual `precursor` resolver result differs from the claim-predicted
self-excluded delegation at this input. -/
theorem c5_precursor_delegation_counterexample :
    fetchCore wPre 3 bPre "y" PyVal.none Option.none []
      = .ok (PyVal.int 42, true, ["B", "A"])
    ∧ fetchCore wPre 2 aPre "y" PyVal.none
        (some (aPre.fetchFrom.filter
          (fun s => s ∉ (["this", "environment"] : List String)))) ["B"]
      = .ok (PyVal.none, false, ["B", "A"])
    ∧ fetch_location_precursor wPre
        (fun pf vn d2 ff2 a2 => fetchCore wPre 2 pf vn d2 ff2 a2)
        bPre "y" PyVal.none bPre.fetchFrom ["B"]
      ≠ fetchCore wPre 2 aPre "y" PyVal.none
        (some (aPre.fetchFrom.filter
          (fun s => s ∉ (["this", "environment"] : List String)))) ["B"] := by
  refine ⟨rfl, rfl, ?_⟩
  intro h
  cases h

/-- C5 (amended): when no predecessor is attached the `precursor` scope
reports not-found; otherwise `Fetch` delegates to the predecessor's
resolver with the same visited list, the delegated scope order being built
from the predecessor's own `fetchFrom` (the caller's order is ignored)
with `environment` excluded and `this` *included* (added); `this` is always
a member of the delegated order and `environment` never is. -/
theorem c5_precursor_delegation_amended :
    (∀ (w : World) (recF : RecFetch) (f : Functor) (vn : String) (d : PyVal)
        (ff : List String) (att : List String), f.precursor = Option.none →
        fetch_location_precursor w recF f vn d ff att = .ok (d, false, att))
    ∧ (∀ (w : World) (recF : RecFetch) (f : Functor) (vn : String) (d : PyVal)
        (ff : List String) (att : List String) (p : String) (pf : Functor),
        f.precursor = some p → World.find w p = some pf →
        fetch_location_precursor w recF f vn d ff att =
          recF pf vn d (some (pySetList
            ((pf.fetchFrom.filter (fun s => s ≠ "environment")) ++ ["this"]))) att)
    ∧ (∀ pf : Functor,
        "this" ∈ pySetList ((pf.fetchFrom.filter (fun s => s ≠ "environment")) ++ ["this"])
        ∧ "environment" ∉
            pySetList ((pf.fetchFrom.filter (fun s => s ≠ "environment")) ++ ["this"])) := by
  refine ⟨?_, ?_, ?_⟩
  · intro w recF f vn d ff att hp
    simp [fetch_location_precursor, hp]
  · intro w recF f vn d ff att p pf hp hf
    simp [fetch_location_precursor, hp, hf]
  · intro pf
    constructor
    · exact pySetList_mem.mpr (List.mem_append_right _ (List.mem_singleton.mpr rfl))
    · intro h
      rcases List.mem_append.mp (pySetList_mem.mp h) with h | h
      · rcases List.mem_filter.mp h with ⟨-, hne⟩
        simp at hne
      · simp at h

/-- C5 witness: the delegation clause applied to the concrete chain
`bPre → aPre`. -/
theorem c5_precursor_delegation_amended_witness :
    fetch_location_precursor wPre
      (fun pf vn d2 ff2 a2 => fetchCore wPre 2 pf vn d2 ff2 a2)
      bPre "y" PyVal.none bPre.fetchFrom ["B"]
    = fetchCore wPre 2 aPre "y" PyVal.none
        (some (pySetList
          ((aPre.fetchFrom.filter (fun s => s ≠ "environment")) ++ ["this"]))) ["B"] :=
  c5_precursor_delegation_amended.2.1 wPre _ bPre "y" PyVal.none
    bPre.fetchFrom ["B"] "A" aPre rfl rfl

/-- C9 counterexample: with current scope order explicitly `["args"]` and
nothing excluded, the claim predicts `FetchWithout` resolves over exactly
`["args"]`, returning the call-argument value `2`; the code ignores the
supplied current order, filters the operation's own `fetchFrom`
(`["this", "args"]`) instead, and returns the attribute value `1` from the
`this` scope. -/
theorem c9_fetch_variants_counterexample :
    Functor.FetchWithout wVar 2 fVar [] "x" PyVal.none (some ["args"]) []
      = .ok (PyVal.int 1, true, ["F"])
    ∧ fetchCore wVar 2 fVar "x" PyVal.none (some ["args"]) []
      = .ok (PyVal.int 2, true, ["F"])
    ∧ Functor.FetchWithout wVar 2 fVar [] "x" PyVal.none (some ["args"]) []
      ≠ fetchCore wVar 2 fVar "x" PyVal.none (some ["args"]) [] := by
  refine ⟨rfl, rfl, ?_⟩
  intro h
  rw [show Functor.FetchWithout wVar 2 fVar [] "x" PyVal.none (some ["args"]) []
      = .ok (PyVal.int 1, true, ["F"]) from rfl,
    show fetchCore wVar 2 fVar "x" PyVal.none (some ["args"]) []
      = .ok (PyVal.int 2, true, ["F"]) from rfl] at h
  cases h

/-- C9 (amended): `FetchWith` delegates to core `Fetch` with the scope
order `list(set(current + additional))` where `current` defaults to the
operation's `fetchFrom` (set order unspecified in CPython; first-occurrence
order in this embedding); `FetchWithout` and `FetchWithAndWithout` ignore
the supplied current scope order entirely — their result is independent of
it — and instead exclude from (and, for the combined variant, augment) the
operation's own `fetchFrom`, delegating to core `Fetch` with the same
name, default and visited list. -/
theorem c9_fetch_variants_amended :
    (∀ (w : World) (fuel : Nat) (f : Functor) (doF : List String) (vn : String)
        (d : PyVal) (cur : Option (List String)) (att : List String),
        Functor.FetchWith w fuel f doF vn d cur att =
          fetchCore w fuel f vn d (some (pySetList ((cur.getD f.fetchFrom) ++ doF))) att)
    ∧ (∀ (w : World) (fuel : Nat) (f : Functor) (dontF : List String) (vn : String)
        (d : PyVal) (cur1 cur2 : Option (List String)) (att : List String),
        Functor.FetchWithout w fuel f dontF vn d cur1 att =
          Functor.FetchWithout w fuel f dontF vn d cur2 att)
    ∧ (∀ (w : World) (fuel : Nat) (f : Functor) (dontF : List String) (vn : String)
        (d : PyVal) (cur : Option (List String)) (att : List String),
        Functor.FetchWithout w fuel f dontF vn d cur att =
          fetchCore w fuel f vn d
            (some (f.fetchFrom.filter (fun s => s ∉ dontF))) att)
    ∧ (∀ (w : World) (fuel : Nat) (f : Functor) (doF dontF : List String) (vn : String)
        (d : PyVal) (cur1 cur2 : Option (List String)) (att : List String),
        Functor.FetchWithAndWithout w fuel f doF dontF vn d cur1 att =
          Functor.FetchWithAndWithout w fuel f doF dontF vn d cur2 att)
    ∧ (∀ (w : World) (fuel : Nat) (f : Functor) (doF dontF : List String) (vn : String)
        (d : PyVal) (cur : Option (List String)) (att : List String),
        Functor.FetchWithAndWithout w fuel f doF dontF vn d cur att =
          fetchCore w fuel f vn d
            (some (pySetList ((f.fetchFrom.filter (fun s => s ∉ dontF)) ++ doF))) att) :=
  ⟨fun _ _ _ _ _ _ _ _ => rfl, fun _ _ _ _ _ _ _ _ _ => rfl,
   fun _ _ _ _ _ _ _ _ => rfl, fun _ _ _ _ _ _ _ _ _ _ => rfl,
   fun _ _ _ _ _ _ _ _ _ => rfl⟩

/-- C3: with setup succeeding and an executor available whenever a
successor is queued, `__call__` sets result 0 on primary success and
dispatches the queued successor; result 1 on primary failure with enabled,
successful rollback, still dispatching; result 2 on failed rollback and
result 3 with rollback disabled, in both cases dispatching nothing,
running the after-hook, and raising if and only if `raiseExceptions` is
set (result codes 2 and 3 exceed 1). -/
theorem c3_call_result_codes :
    ∀ cfg : CallCfg, cfg.setupFails = false →
      (cfg.hasNext = true → cfg.hasExecutor = true) →
      (cfg.functionSucceeds = true →
        (pyCall cfg).result = 0 ∧ (pyCall cfg).nextDispatched = cfg.hasNext
          ∧ (pyCall cfg).raised = false)
      ∧ (cfg.functionSucceeds = false → cfg.enableRollback = true →
          cfg.rollbackSucceeds = true →
        (pyCall cfg).result = 1 ∧ (pyCall cfg).nextDispatched = cfg.hasNext
          ∧ (pyCall cfg).raised = false)
      ∧ (cfg.functionSucceeds = false → cfg.enableRollback = true →
          cfg.rollbackSucceeds = false →
        (pyCall cfg).result = 2 ∧ (pyCall cfg).nextDispatched = false
          ∧ (pyCall cfg).afterHookRan = true
          ∧ (pyCall cfg).raised = cfg.raiseExceptions)
      ∧ (cfg.functionSucceeds = false → cfg.enableRollback = false →
        (pyCall cfg).result = 3 ∧ (pyCall cfg).nextDispatched = false
          ∧ (pyCall cfg).afterHookRan = true
          ∧ (pyCall cfg).raised = cfg.raiseExceptions) := by
  intro cfg hsetup hexec
  refine ⟨?_, ?_, ?_, ?_⟩
  · intro hfs
    cases hhn : cfg.hasNext with
    | false => simp [pyCall, CallNextModel, hsetup, hfs, hhn]
    | true => simp [pyCall, CallNextModel, hsetup, hfs, hhn, hexec hhn]
  · intro hfs her hrs
    cases hhn : cfg.hasNext with
    | false => simp [pyCall, CallNextModel, hsetup, hfs, her, hrs, hhn]
    | true => simp [pyCall, CallNextModel, hsetup, hfs, her, hrs, hhn, hexec hhn]
  · intro hfs her hrs
    cases hre : cfg.raiseExceptions <;>
      simp [pyCall, CallNextModel, hsetup, hfs, her, hrs, hre]
  · intro hfs her
    cases hre : cfg.raiseExceptions <;>
      simp [pyCall, CallNextModel, hsetup, hfs, her, hre]

/-- C3 witness: an invocation whose primary capability fails but whose
rollback succeeds, with a queued successor and an executor: result 1,
successor dispatched, no raise. -/
theorem c3_call_result_codes_witness :
    (pyCall { setupFails := false, functionSucceeds := false,
              rollbackSucceeds := true, enableRollback := true,
              raiseExceptions := true, hasNext := true, hasExecutor := true,
              prevResult := 0 }).result = 1
    ∧ (pyCall { setupFails := false, functionSucceeds := false,
                rollbackSucceeds := true, enableRollback := true,
                raiseExceptions := true, hasNext := true, hasExecutor := true,
                prevResult := 0 }).nextDispatched = true
    ∧ (pyCall { setupFails := false, functionSucceeds := false,
                rollbackSucceeds := true, enableRollback := true,
                raiseExceptions := true, hasNext := true, hasExecutor := true,
                prevResult := 0 }).raised = false :=
  (c3_call_result_codes
    { setupFails := false, functionSucceeds := false, rollbackSucceeds := true,
      enableRollback := true, raiseExceptions := true, hasNext := true,
      hasExecutor := true, prevResult := 0 }
    rfl (fun _ => rfl)).2.1 rfl rfl rfl

/-- C8 counterexample: an invocation whose primary capability fails with
rollback disabled and `raiseExceptions` set raises (result 3 exceeds 1)
and exits without reaching `FunctorTracker.Pop` — the in-flight stack
keeps the pushed entry, refuting "popped exactly once on every exit
path". -/
theorem c8_tracker_pop_counterexample :
    (pyCall { setupFails := false, functionSucceeds := false,
              rollbackSucceeds := false, enableRollback := false,
              raiseExceptions := true, hasNext := false, hasExecutor := false,
              prevResult := 0 }).raised = true
    ∧ (pyCall { setupFails := false, functionSucceeds := false,
                rollbackSucceeds := false, enableRollback := false,
                raiseExceptions := true, hasNext := false, hasExecutor := false,
                prevResult := 0 }).popped = false :=
  ⟨rfl, rfl⟩

/-- C8 (amended): the in-flight stack is pushed exactly once on entry and
popped exactly once on every *normal* return; on every raising exit —
a re-raised lifecycle failure or the `result > 1` raise — the pop is
skipped, so the stack stays balanced precisely when the invocation
returns normally. -/
theorem c8_tracker_pop_amended :
    ∀ cfg : CallCfg, (pyCall cfg).popped = !(pyCall cfg).raised := by
  intro cfg
  rcases cfg with ⟨su, fs, rs, er, re, hn, he, pr⟩
  cases su <;> cases fs <;> cases rs <;> cases er <;> cases re <;>
    cases hn <;> cases he <;> simp [pyCall, CallNextModel]

/-- The argument lists of the duplicate-declaration example: both required
names are also declared optional. -/
def dupArgsEx : ArgLists :=
  { requiredKWArgs := ["a", "b"], requiredMethods := [], requiredPrograms := [],
    optionalKWArgs := [("a", PyVal.int 1), ("b", PyVal.int 2)] }

/-- C6: `RemoveDuplicateArgs` removes elements of `requiredKWArgs` while
iterating over the same list, so removing `"a"` shifts `"b"` under the
iterator's index and `"b"` is never examined: after initialization `"b"`
remains in both `requiredKWArgs` and `optionalKWArgs`, contradicting the
claim for inputs where several required names are also optional. -/
theorem c6_remove_duplicate_args_bug :
    (RemoveDuplicateArgs dupArgsEx).requiredKWArgs = ["b"]
    ∧ "b" ∈ (RemoveDuplicateArgs dupArgsEx).requiredKWArgs
    ∧ "b" ∈ (RemoveDuplicateArgs dupArgsEx).optionalKWArgs.map Prod.fst := by
  refine ⟨rfl, ?_, ?_⟩ <;> decide

lemma validateStaticGo_ok (w : World) (fuel : Nat) :
    ∀ (skws : List String) (f : Functor) (fetched : List String) (f2 : Functor)
      (names : List String),
    validateStaticGo w fuel f skws fetched = .ok (f2, names) →
    f2.staticArgsValid = true ∧ ∃ t, names = fetched ++ t ∧ t.Sublist skws := by
  intro skws
  induction skws with
  | nil =>
      intro f fetched f2 names h
      simp only [validateStaticGo] at h
      injection h with h
      injection h with h1 h2
      subst h2
      refine ⟨?_, [], by simp, List.nil_sublist _⟩
      rw [← h1]
  | cons skw rest ih =>
      intro f fetched f2 names h
      simp only [validateStaticGo] at h
      split at h
      · obtain ⟨hvalid, t, hnames, hsub⟩ := ih f fetched f2 names h
        exact ⟨hvalid, t, hnames, hsub.cons _⟩
      · split at h
        · cases h
        · split at h
          · cases h
          · split at h
            · cases h
            · obtain ⟨hvalid, t, hnames, hsub⟩ := ih _ (fetched ++ [skw]) f2 names h
              refine ⟨hvalid, skw :: t, ?_, hsub.cons₂ _⟩
              rw [hnames, List.append_assoc, List.singleton_append]

/-- C4: once a validating run of `ValidateStaticArgs` succeeds, the
`staticArgsValid` flag is set and every later invocation — whatever world,
fetch budget or call arguments it brings — returns the functor unchanged
and fetches nothing, so each static name is resolved at most once (within
the succeeding run itself the fetched names are distinct whenever the
declared list is); an instance already carrying the flag is likewise left
untouched; and a static argument no scope can resolve (the fetch stays
null) raises `MissingArgumentError`. -/
theorem c4_static_args_resolved_once :
    (∀ (w : World) (fuel : Nat) (f : Functor), f.staticArgsValid = true →
        ValidateStaticArgs w fuel f = .ok (f, []))
    ∧ (∀ (w : World) (fuel : Nat) (f f2 : Functor) (names : List String),
        ValidateStaticArgs w fuel f = .ok (f2, names) →
        f2.staticArgsValid = true
        ∧ (f.staticKWArgs.Nodup → names.Nodup)
        ∧ ∀ (w2 : World) (fuel2 : Nat) (k2 : List (String × PyVal)),
            ValidateStaticArgs w2 fuel2 { f2 with kwargs := k2 }
              = .ok ({ f2 with kwargs := k2 }, []))
    ∧ ValidateStaticArgs wSFail 2 sFail = .error .missingArgument := by
  refine ⟨?_, ?_, rfl⟩
  · intro w fuel f hv
    simp [ValidateStaticArgs, hv]
  · intro w fuel f f2 names h
    have key : f2.staticArgsValid = true ∧ (f.staticKWArgs.Nodup → names.Nodup) := by
      by_cases hv : f.staticArgsValid = true
      · simp only [ValidateStaticArgs, if_pos hv] at h
        injection h with h
        injection h with h1 h2
        subst h2
        constructor
        · rw [← h1]; exact hv
        · intro _; exact List.nodup_nil
      · simp only [ValidateStaticArgs, if_neg hv] at h
        obtain ⟨hvalid, t, hnames, hsub⟩ :=
          validateStaticGo_ok w fuel f.staticKWArgs f [] f2 names h
        simp only [List.nil_append] at hnames
        subst hnames
        exact ⟨hvalid, fun hnd => hnd.sublist hsub⟩
    refine ⟨key.1, key.2, ?_⟩
    intro w2 fuel2 k2
    simp [ValidateStaticArgs, key.1]

/-- The state of `sOk` after its static argument has been resolved and
cached. -/
def sOkDone : Functor :=
  { sOk with attrs := [("x", PyVal.int 5)], staticArgsValid := true }

/-- C4 witness: the concrete operation `sOk` resolves its static `x` to 5
on the first run; the caching clause then shows a second invocation with a
different call-argument value for `x` changes nothing and fetches
nothing. -/
theorem c4_static_args_resolved_once_witness :
    sOkDone.staticArgsValid = true
    ∧ ValidateStaticArgs wSOk 3 { sOkDone with kwargs := [("x", PyVal.int 7)] }
        = .ok ({ sOkDone with kwargs := [("x", PyVal.int 7)] }, []) := by
  have h := c4_static_args_resolved_once.2.1 wSOk 2 sOk sOkDone ["x"] rfl
  exact ⟨h.1, h.2.2 wSOk 3 [("x", PyVal.int 7)]⟩

/-- C7: `EvaluateToType` sends null and the literal text `"None"` to null;
passes booleans, integers and floats through unchanged; evaluates
sequences and mappings recursively, preserving order and keys; and casts
text (here with interpolation off; the interpolated path is witnessed by
the `{this.count}` example) by the cascade: case-insensitive
`"true"`/`"false"` to a boolean, then a float exactly under the
format-back round-trip, then an integer under the same round-trip,
otherwise the text unchanged.  The five spec examples evaluate as
stated. -/
theorem c7_evaluate_to_type :
    (∀ (attrs : List (String × PyVal)) (e : Bool),
        EvaluateToType attrs PyVal.none e = .ok PyVal.none
        ∧ EvaluateToType attrs (PyVal.str "None") e = .ok PyVal.none)
    ∧ (∀ (attrs : List (String × PyVal)) (e : Bool) (b : Bool) (n : Int) (q : String),
        EvaluateToType attrs (PyVal.bool b) e = .ok (PyVal.bool b)
        ∧ EvaluateToType attrs (PyVal.int n) e = .ok (PyVal.int n)
        ∧ EvaluateToType attrs (PyVal.float q) e = .ok (PyVal.float q))
    ∧ (∀ (attrs : List (String × PyVal)) (e : Bool) (v rest : PyVal),
        EvaluateToType attrs (PyVal.listCons v rest) e =
          match EvaluateToType attrs v e with
          | .error er => .error er
          | .ok v2 =>
              match EvaluateToType attrs rest e with
              | .error er => .error er
              | .ok r2 => .ok (PyVal.listCons v2 r2))
    ∧ (∀ (attrs : List (String × PyVal)) (e : Bool) (k : String) (v rest : PyVal),
        EvaluateToType attrs (PyVal.dictCons k v rest) e =
          match EvaluateToType attrs v e with
          | .error er => .error er
          | .ok v2 =>
              match EvaluateToType attrs rest e with
              | .error er => .error er
              | .ok r2 => .ok (PyVal.dictCons k v2 r2))
    ∧ (∀ (attrs : List (String × PyVal)) (s : String),
        EvaluateToType attrs (PyVal.str s) false =
          if s = "None" then .ok PyVal.none
          else if pyLower s = "false" then .ok (PyVal.bool false)
          else if pyLower s = "true" then .ok (PyVal.bool true)
          else if pyFloatRT s then .ok (PyVal.float s)
          else
            match pyIntCanon s with
            | some n => .ok (PyVal.int n)
            | Option.none => .ok (PyVal.str s))
    ∧ EvaluateToType [("count", PyVal.int 3)] (PyVal.str "{this.count}") true
        = .ok (PyVal.int 3)
    ∧ EvaluateToType [] (PyVal.str "true") true = .ok (PyVal.bool true)
    ∧ EvaluateToType [] (PyVal.str "3.0") true = .ok (PyVal.float "3.0")
    ∧ EvaluateToType [] (PyVal.str "3") true = .ok (PyVal.int 3)
    ∧ EvaluateToType [] (PyVal.str "hello") true = .ok (PyVal.str "hello") := by
  refine ⟨?_, ?_, ?_, ?_, ?_, rfl, rfl, rfl, rfl, rfl⟩
  · intro attrs e
    exact ⟨rfl, rfl⟩
  · intro attrs e b n q
    exact ⟨rfl, rfl, rfl⟩
  · intro attrs e v rest
    rfl
  · intro attrs e k v rest
    rfl
  · intro attrs s
    rfl

end Eons
